import Mathlib

/-!
# Products and reviews API: admission control, handlers and storage gateway

A shallow embedding of the Go sources under `cmd/api` and `internal/data`.

* Go maps are association lists with `mapGet`, `mapSet`, `mapDelete`.
* Instants and durations are exact rational numbers of seconds.
* `float64` payload values are rationals (JSON numbers are finite; the only
  float operation in the sources is comparison with zero).
* The SQL store is a record of answers, one per statement text of the sources;
  every gateway method also returns the statements it issued.
-/

namespace Awt

set_option autoImplicit false

/-! ## Go values -/

/-- Error values that the sources compare with `errors.Is`. The two
`ErrRecordNotFound` variables are distinct values: one is declared in
`internal/data/products.go`, the other in `cmd/api/products.go`. -/
inductive GoError where
  | dataErrRecordNotFound
  | mainErrRecordNotFound
  | sqlErrNoRows
  | other (msg : String)
  deriving DecidableEq, Repr

/-- The call `errors.Is(err, target)` for the unwrapped error values above. -/
def errorsIs (err target : GoError) : Bool :=
  decide (err = target)

/-! ## Go maps -/

/-- Lookup `m[k]` with the comma-ok result. -/
def mapGet {α : Type} : List (String × α) → String → Option α
  | [], _ => none
  | (k, v) :: rest, key => if k = key then some v else mapGet rest key

/-- Assignment `m[k] = v`. -/
def mapSet {α : Type} : List (String × α) → String → α → List (String × α)
  | [], key, val => [(key, val)]
  | (k, v) :: rest, key, val =>
    if k = key then (k, val) :: rest else (k, v) :: mapSet rest key val

/-- The builtin `delete(m, k)`. -/
def mapDelete {α : Type} (m : List (String × α)) (key : String) : List (String × α) :=
  m.filter (fun e => !decide (e.1 = key))

/-- Keys of a Go map are pairwise distinct. -/
def mapKeysDistinct {α : Type} (m : List (String × α)) : Prop :=
  (m.map Prod.fst).Nodup

/-! ## Responses -/

/-- Pagination summary of a list response. -/
structure Metadata where
  currentPage : Int
  pageSize : Int
  firstPage : Int
  lastPage : Int
  totalRecords : Int
  deriving DecidableEq, Repr

/-- The zero value `Metadata{}`. -/
def Metadata.zero : Metadata :=
  { currentPage := 0, pageSize := 0, firstPage := 0, lastPage := 0, totalRecords := 0 }

/-- A stored product. -/
structure Product where
  ID : Int
  Name : String
  Description : String
  Category : String
  Price : ℚ
  AverageRating : ℚ
  ImageURL : String
  CreatedAt : ℚ
  deriving DecidableEq, Repr

/-- A stored review. -/
structure Review where
  ID : Int
  ProductID : Int
  Author : String
  Rating : Int
  HelpfulCount : Int
  CreatedAt : ℚ
  deriving DecidableEq, Repr

/-- Payload of a JSON envelope. -/
inductive Body where
  | product (p : Product)
  | products (ps : List Product) (md : Metadata)
  | review (r : Review)
  | reviews (rs : List Review) (md : Metadata)
  | message (msg : String)
  deriving DecidableEq, Repr

/-- What a handler writes: one constructor per response helper of the API. -/
inductive Response where
  | ok (body : Body)
  | created (location : String) (body : Body)
  | badRequest (err : GoError)
  | notFound
  | methodNotAllowed
  | failedValidation (errors : List (String × String))
  | rateLimitExceeded
  | serverError (err : GoError)
  deriving DecidableEq, Repr

/-- Outcome of running a handler: a response, or a run-time panic. -/
inductive Result where
  | response (r : Response)
  | panic (msg : String)
  deriving DecidableEq, Repr

/-! ## Token bucket -/

/-- Modelled from the spec: the limiter of `golang.org/x/time/rate`, which is not
part of the sources. A bucket holds `tokens`, refilled at `limit` tokens per
second up to `burst`, as of instant `last`. -/
structure Limiter where
  limit : ℚ
  burst : Int
  tokens : ℚ
  last : ℚ
  deriving DecidableEq, Repr

/-- Modelled from the spec: `rate.NewLimiter`, a fresh full-capacity bucket. -/
def NewLimiter (r : ℚ) (b : Int) : Limiter :=
  { limit := r, burst := b, tokens := (b : ℚ), last := 0 }

/-- Modelled from the spec: tokens accrued by instant `now`, capped at the burst
capacity and computed lazily. A non-positive rate accrues nothing. -/
def Limiter.advance (lim : Limiter) (now : ℚ) : ℚ :=
  let elapsed := max 0 (now - lim.last)
  let delta := if lim.limit ≤ 0 then 0 else elapsed * lim.limit
  min (lim.burst : ℚ) (lim.tokens + delta)

/-- Modelled from the spec: `Allow` at instant `now`. With at least one token
the bucket is decremented and the request admitted; otherwise it is rejected
and the bucket is left as it was. -/
def Limiter.Allow (lim : Limiter) (now : ℚ) : Bool × Limiter :=
  let tokens := lim.advance now
  if 1 ≤ tokens then (true, { lim with tokens := tokens - 1, last := now })
  else (false, lim)

/-! ## Middleware -/

/-- The `limiter` block of `serverConfig`. -/
structure LimiterConfig where
  rps : ℚ
  burst : Int
  enabled : Bool
  deriving DecidableEq, Repr

/-- An inbound request. `hostPort` is the result of
`net.SplitHostPort(r.RemoteAddr)`; `path` is the URL path cut at the slashes. -/
structure Request where
  method : String
  path : List String
  hostPort : Except GoError (String × String)

/-- The local type `client` of `rateLimit`. -/
structure Client where
  limiter : Limiter
  lastSeen : ℚ
  deriving DecidableEq, Repr

/-- The registry `clients` of `rateLimit`. -/
abbrev Clients := List (String × Client)

/-- One pass of the loop body of the background task of `rateLimit`, at instant
`now`: ranges over the entries and deletes those last seen more than three
minutes ago. -/
def sweep (now : ℚ) (clients : Clients) : Clients :=
  clients.foldl
    (fun acc e => if now - e.2.lastSeen > 3 * 60 then mapDelete acc e.1 else acc)
    clients

/-- The handler returned by `rateLimit(next)`, run at instant `now` on the
registry `clients`. -/
def rateLimit (cfg : LimiterConfig) (next : Request → Result) (now : ℚ) (r : Request)
    (clients : Clients) : Result × Clients :=
  if cfg.enabled then
    match r.hostPort with
    | .error err => (.response (.serverError err), clients)
    | .ok (ip, _) =>
      let clients1 :=
        match mapGet clients ip with
        | some _ => clients
        | none => mapSet clients ip { limiter := NewLimiter cfg.rps cfg.burst, lastSeen := 0 }
      match mapGet clients1 ip with
      | none => (.panic "nil pointer dereference", clients1)
      | some c =>
        let c1 : Client := { c with lastSeen := now }
        let res := c1.limiter.Allow now
        let clients2 := mapSet clients1 ip { c1 with limiter := res.2 }
        if !res.1 then (.response .rateLimitExceeded, clients2)
        else (next r, clients2)
  else (next r, clients)

/-- The handler returned by `recoverPanic(next)`. -/
def recoverPanic (next : Request → Result) (r : Request) : Result :=
  match next r with
  | .panic msg => .response (.serverError (.other msg))
  | res => res

/-- The eleven entries of the routing table. -/
inductive Route where
  | healthCheck
  | createProduct | displayProduct | updateProduct | deleteProduct | listProducts
  | createReview | displayReview | updateReview | deleteReview | listReviews
  deriving DecidableEq, Repr

/-- The routing table of `routes`: the methods registered for a path, with the
handler of each. -/
def routeTable (path : List String) : List (String × Route) :=
  match path with
  | ["v1", "healthcheck"] => [("GET", .healthCheck)]
  | ["v1", "product"] => [("POST", .createProduct)]
  | ["v1", "products", _] =>
    [("GET", .displayProduct), ("PATCH", .updateProduct), ("DELETE", .deleteProduct)]
  | ["v1", "products"] => [("GET", .listProducts)]
  | ["v1", "review"] => [("POST", .createReview)]
  | ["v1", "review", _] =>
    [("GET", .displayReview), ("PATCH", .updateReview), ("DELETE", .deleteReview)]
  | ["v1", "reviews"] => [("GET", .listReviews)]
  | _ => []

/-- The router built by `routes`: dispatches on path and method to the handlers
`serve`, with the not-found and method-not-allowed responses installed. -/
def router (serve : Route → Request → Result) (r : Request) : Result :=
  match routeTable r.path with
  | [] => .response .notFound
  | table =>
    match mapGet table r.method with
    | some route => serve route r
    | none => .response .methodNotAllowed

/-- The handler chain returned by `routes()`: `a.recoverPanic(router)`. -/
def routes (serve : Route → Request → Result) : Request → Result :=
  recoverPanic (router serve)

/-- Serves the requests one after the other, each at its own instant. -/
def serveAll (h : ℚ → Request → Clients → Result × Clients) :
    List (ℚ × Request) → Clients → List Result × Clients
  | [], clients => ([], clients)
  | (now, r) :: rest, clients =>
    let out := h now r clients
    let tail := serveAll h rest out.2
    (out.1 :: tail.1, tail.2)

/-! ## Validator -/

/-- Modelled from the spec: the validator of `internal/validator`, which is not
part of the sources. It holds the recorded messages by field key. -/
structure Validator where
  Errors : List (String × String)
  deriving DecidableEq, Repr

/-- Modelled from the spec: `validator.New`, a validator with nothing recorded. -/
def Validator.New : Validator :=
  { Errors := [] }

/-- Modelled from the spec: `IsEmpty` reports that no error was recorded. -/
def Validator.IsEmpty (v : Validator) : Bool :=
  v.Errors.isEmpty

/-- Modelled from the spec: `AddError` records the message unless the field key
already carries one (first failure wins). -/
def Validator.AddError (v : Validator) (key message : String) : Validator :=
  match mapGet v.Errors key with
  | some _ => v
  | none => { Errors := mapSet v.Errors key message }

/-- Modelled from the spec: `Check` records the message under the field key only
when the condition is false. -/
def Validator.Check (v : Validator) (ok : Bool) (key message : String) : Validator :=
  if !ok then v.AddError key message else v

/-- The builtin `len` of a Go string: its length in bytes. -/
def len (s : String) : Nat :=
  s.utf8ByteSize

/-- The function `ValidateProduct` of `internal/data/products.go`. -/
def ValidateProduct (v : Validator) (product : Product) (handler : Int) : Validator :=
  if handler = 1 then
    let v := v.Check (product.Name != "") "name" "must be provided"
    let v := v.Check (product.Description != "") "description" "must be provided"
    let v := v.Check (product.Category != "") "category" "must be provided"
    let v := v.Check (product.AverageRating != 0) "average_rating" "must be provided"
    let v := v.Check (product.ImageURL != "") "image_url" "must be provided"
    let v := v.Check (decide (len product.Name ≤ 100)) "name"
      "must not be more than 100 byte long"
    let v := v.Check (decide (len product.Description ≤ 100)) "description"
      "must not be more than 100 byte long"
    let v := v.Check (decide (len product.Category ≤ 100)) "category"
      "must not be more than 100 byte long"
    v
  else
    v.AddError "default" "Handler ID not provided"

/-- The function `ValidateReview` of `internal/data/reviews.go`. -/
def ValidateReview (v : Validator) (review : Review) : Validator :=
  let v := v.Check (review.Author != "") "author" "must be provided"
  let v := v.Check (decide (len review.Author ≤ 25)) "author"
    "must not be more than 25 bytes long"
  let v := v.Check (decide (review.ProductID > 0)) "product_id" "must be a positive integer"
  let v := v.Check (decide (review.Rating ≥ 1) && decide (review.Rating ≤ 5)) "rating"
    "must be between 1 and 5"
  v

/-! ## Pagination -/

/-- A value of Go type `int` after 64-bit wrap-around. -/
def wrapInt64 (x : Int) : Int :=
  (x + 2 ^ 63) % 2 ^ 64 - 2 ^ 63

/-- Modelled from the spec: the `Filters` of `internal/data`, declared in a file
that is not part of the sources. `SortKey` is its field `Sort`. -/
structure Filters where
  Page : Int
  PageSize : Int
  SortKey : String
  SortSafeList : List String
  deriving DecidableEq, Repr

/-- Modelled from the spec: `limit = page_size`. -/
def Filters.limit (f : Filters) : Int :=
  f.PageSize

/-- Modelled from the spec: `offset = (page - 1) * page_size`, in Go `int`. -/
def Filters.offset (f : Filters) : Int :=
  wrapInt64 ((f.Page - 1) * f.PageSize)

/-- Modelled from the spec: the sort key with a leading `-` stripped. -/
def Filters.sortColumn (f : Filters) : String :=
  if f.SortKey.startsWith "-" then f.SortKey.drop 1 else f.SortKey

/-- Modelled from the spec: a leading `-` selects descending order, its absence
ascending. -/
def Filters.sortDirection (f : Filters) : String :=
  if f.SortKey.startsWith "-" then "DESC" else "ASC"

/-- Modelled from the spec: `calculateMetaData`, declared in a file that is not
part of the sources. With no record every field is zero; otherwise the first
page is 1 and the last page is the ceiling of total over page size. -/
def calculateMetaData (totalRecords page pageSize : Int) : Metadata :=
  if totalRecords = 0 then Metadata.zero
  else
    { currentPage := page,
      pageSize := pageSize,
      firstPage := 1,
      lastPage := ⌈(totalRecords : ℚ) / (pageSize : ℚ)⌉,
      totalRecords := totalRecords }

/-! ## Storage gateway -/

/-- A value bound to a placeholder of a statement. -/
inductive SqlArg where
  | text (s : String)
  | real (q : ℚ)
  | int (i : Int)
  deriving DecidableEq, Repr

/-- The statement texts of `internal/data`; the two list queries carry the
interpolated sort column and direction. -/
inductive Query where
  | insertProduct
  | selectProduct
  | selectProducts (column direction : String)
  | updateProduct
  | deleteProduct
  | existsProduct
  | insertReview
  | selectReviews (column direction : String)
  | deleteReview
  | updateReview
  deriving DecidableEq, Repr

/-- A statement sent to the store: its text and the bound arguments, in order. -/
structure Statement where
  query : Query
  args : List SqlArg
  deriving DecidableEq, Repr

/-- The rows of a list query: each row either scans into a total count and an
entity or fails to scan; `err` is the result of `rows.Err()`. -/
structure Rows (α : Type) where
  scanned : List (Except GoError (Int × α))
  err : Option GoError

/-- The SQL store behind `*sql.DB`: what it answers to each statement of the
sources for the given bound arguments. A single-row answer is the outcome of
`QueryRowContext(...).Scan(...)`; the answer to a delete is the outcome of
`ExecContext` and then of `RowsAffected`. -/
structure DB where
  insertProduct : List SqlArg → Except GoError (Int × ℚ)
  selectProduct : List SqlArg → Except GoError Product
  selectProducts : String → String → List SqlArg → Except GoError (Rows Product)
  updateProduct : List SqlArg → Except GoError Int
  deleteProduct : List SqlArg → Except GoError (Except GoError Int)
  existsProduct : List SqlArg → Except GoError Bool
  insertReview : List SqlArg → Except GoError Int
  selectReviews : String → String → List SqlArg → Except GoError (Rows Review)
  deleteReview : List SqlArg → Except GoError (Except GoError Int)
  updateReview : List SqlArg → Except GoError Int

/-- The method `ProductModel.Insert`: the outcome, with the identity and creation
time scanned into the product, and the statements issued. -/
def ProductModel.Insert (db : DB) (product : Product) :
    Except GoError Product × List Statement :=
  let args := [SqlArg.text product.Name, .text product.Description, .text product.Category,
    .real product.Price, .int 0, .text product.ImageURL]
  match db.insertProduct args with
  | .error err => (.error err, [{ query := .insertProduct, args := args }])
  | .ok (id, createdAt) =>
    (.ok { product with ID := id, CreatedAt := createdAt },
     [{ query := .insertProduct, args := args }])

/-- The method `ProductModel.Get`. -/
def ProductModel.Get (db : DB) (id : Int) : Except GoError Product × List Statement :=
  if id < 1 then (.error .dataErrRecordNotFound, [])
  else
    match db.selectProduct [.int id] with
    | .error err =>
      if errorsIs err .sqlErrNoRows then
        (.error .dataErrRecordNotFound, [{ query := .selectProduct, args := [.int id] }])
      else (.error err, [{ query := .selectProduct, args := [.int id] }])
    | .ok product => (.ok product, [{ query := .selectProduct, args := [.int id] }])

/-- The row loop of `GetAll`: scans every row into the running total and the
entity list, stopping at the first row that fails to scan. -/
def scanRows {α : Type} :
    List (Except GoError (Int × α)) → Int → List α → Except GoError (Int × List α)
  | [], totalRecords, acc => .ok (totalRecords, acc)
  | .error err :: _, _, _ => .error err
  | .ok (count, entity) :: rest, _, acc => scanRows rest count (acc ++ [entity])

/-- The method `ProductModel.GetAll`. -/
def ProductModel.GetAll (db : DB) (name description category price avgRating imageURL : String)
    (filters : Filters) : Except GoError (List Product × Metadata) × List Statement :=
  let stmt : Statement :=
    { query := .selectProducts filters.sortColumn filters.sortDirection,
      args := [.text name, .text description, .text category, .text price, .text avgRating,
        .text imageURL, .int filters.limit, .int filters.offset] }
  match db.selectProducts filters.sortColumn filters.sortDirection stmt.args with
  | .error err => (.error err, [stmt])
  | .ok rows =>
    match scanRows rows.scanned 0 [] with
    | .error err => (.error err, [stmt])
    | .ok (totalRecords, products) =>
      match rows.err with
      | some err => (.error err, [stmt])
      | none =>
        (.ok (products, calculateMetaData totalRecords filters.Page filters.PageSize), [stmt])

/-- The method `ProductModel.Update`. -/
def ProductModel.Update (db : DB) (product : Product) :
    Except GoError Product × List Statement :=
  let args := [SqlArg.text product.Name, .text product.Description, .text product.Category,
    .real product.Price, .text product.ImageURL, .real product.AverageRating, .int product.ID]
  match db.updateProduct args with
  | .error err => (.error err, [{ query := .updateProduct, args := args }])
  | .ok id =>
    let product1 := { product with ID := id }
    match db.updateProduct args with
    | .error err =>
      (.error err, [{ query := .updateProduct, args := args },
                    { query := .updateProduct, args := args }])
    | .ok id2 =>
      (.ok { product1 with ID := id2 },
       [{ query := .updateProduct, args := args }, { query := .updateProduct, args := args }])

/-- The method `ProductModel.Delete`: `none` is the nil error. -/
def ProductModel.Delete (db : DB) (id : Int) : Option GoError × List Statement :=
  if id < 1 then (some .dataErrRecordNotFound, [])
  else
    match db.deleteProduct [.int id] with
    | .error err => (some err, [{ query := .deleteProduct, args := [.int id] }])
    | .ok (.error err) => (some err, [{ query := .deleteProduct, args := [.int id] }])
    | .ok (.ok rowsAffected) =>
      if rowsAffected = 0 then
        (some .dataErrRecordNotFound, [{ query := .deleteProduct, args := [.int id] }])
      else (none, [{ query := .deleteProduct, args := [.int id] }])

/-- The method `ProductModel.Exists`. -/
def ProductModel.Exists (db : DB) (productID : Int) :
    Except GoError Bool × List Statement :=
  match db.existsProduct [.int productID] with
  | .error err => (.error err, [{ query := .existsProduct, args := [.int productID] }])
  | .ok found => (.ok found, [{ query := .existsProduct, args := [.int productID] }])

/-- The method `ReviewModel.Insert`. -/
def ReviewModel.Insert (db : DB) (review : Review) : Except GoError Review × List Statement :=
  let args := [SqlArg.int review.ProductID, .text review.Author, .int review.Rating,
    .int review.HelpfulCount]
  match db.insertReview args with
  | .error err => (.error err, [{ query := .insertReview, args := args }])
  | .ok id => (.ok { review with ID := id }, [{ query := .insertReview, args := args }])

/-- The method `ReviewModel.GetAll`. -/
def ReviewModel.GetAll (db : DB) (author rating helpfulCount : String) (filters : Filters) :
    Except GoError (List Review × Metadata) × List Statement :=
  let stmt : Statement :=
    { query := .selectReviews filters.sortColumn filters.sortDirection,
      args := [.text author, .text rating, .text helpfulCount, .int filters.limit,
        .int filters.offset] }
  match db.selectReviews filters.sortColumn filters.sortDirection stmt.args with
  | .error err => (.error err, [stmt])
  | .ok rows =>
    match scanRows rows.scanned 0 [] with
    | .error err => (.error err, [stmt])
    | .ok (totalRecords, reviews) =>
      match rows.err with
      | some err => (.error err, [stmt])
      | none =>
        (.ok (reviews, calculateMetaData totalRecords filters.Page filters.PageSize), [stmt])

/-- The method `ReviewModel.Delete`: `none` is the nil error. -/
def ReviewModel.Delete (db : DB) (id : Int) : Option GoError × List Statement :=
  if id < 1 then (some .dataErrRecordNotFound, [])
  else
    match db.deleteReview [.int id] with
    | .error err => (some err, [{ query := .deleteReview, args := [.int id] }])
    | .ok (.error err) => (some err, [{ query := .deleteReview, args := [.int id] }])
    | .ok (.ok rowsAffected) =>
      if rowsAffected = 0 then
        (some .dataErrRecordNotFound, [{ query := .deleteReview, args := [.int id] }])
      else (none, [{ query := .deleteReview, args := [.int id] }])

/-- The method `ReviewModel.Update`. -/
def ReviewModel.Update (db : DB) (review : Review) : Except GoError Review × List Statement :=
  let args := [SqlArg.text review.Author, .int review.Rating, .int review.HelpfulCount,
    .int review.ID]
  match db.updateReview args with
  | .error err => (.error err, [{ query := .updateReview, args := args }])
  | .ok id => (.ok { review with ID := id }, [{ query := .updateReview, args := args }])

/-! ## Resource handlers -/

/-- The dependencies of a handler: the store behind both models, and the error
returned by `writeJSON` (`none` when the envelope is written). -/
structure App where
  db : DB
  writeErr : Option GoError

/-- The decoded body of a create-product request. -/
structure ProductInput where
  Name : String
  Description : String
  Category : String
  Price : ℚ
  AverageRating : ℚ
  ImageURL : String
  deriving DecidableEq, Repr

/-- The decoded body of an update-product request: `none` is an absent field. -/
structure ProductPatch where
  Name : Option String
  Description : Option String
  Category : Option String
  Price : Option ℚ
  AverageRating : Option ℚ
  ImageURL : Option String
  deriving DecidableEq, Repr

/-- The decoded body of a create-review request: `none` is an absent field. -/
structure ReviewInput where
  ProductID : Option Int
  Author : Option String
  Rating : Option Int
  HelpfulCount : Option Int
  deriving DecidableEq, Repr

/-- The handler `createProductHandler`, on the outcome of `readJSON`. The line
printed after the envelope is left out. -/
def createProductHandler (a : App) (body : Except GoError ProductInput) :
    Response × List Statement :=
  match body with
  | .error err => (.badRequest err, [])
  | .ok incomingData =>
    let product : Product :=
      { ID := 0, Name := incomingData.Name, Description := incomingData.Description,
        Category := incomingData.Category, Price := incomingData.Price,
        AverageRating := incomingData.AverageRating, ImageURL := incomingData.ImageURL,
        CreatedAt := 0 }
    let v := ValidateProduct Validator.New product 1
    if !v.IsEmpty then (.failedValidation v.Errors, [])
    else
      match ProductModel.Insert a.db product with
      | (.error err, log) => (.serverError err, log)
      | (.ok stored, log) =>
        match a.writeErr with
        | some err => (.serverError err, log)
        | none => (.created ("/product/" ++ toString stored.ID) (.product stored), log)

/-- The handler `displayProductHandler`, on the outcome of `readIDParam`. -/
def displayProductHandler (a : App) (idParam : Except GoError Int) :
    Response × List Statement :=
  match idParam with
  | .error _ => (.notFound, [])
  | .ok id =>
    match ProductModel.Get a.db id with
    | (.error err, log) =>
      if errorsIs err .mainErrRecordNotFound then (.notFound, log)
      else (.serverError err, log)
    | (.ok product, log) =>
      match a.writeErr with
      | some err => (.serverError err, log)
      | none => (.ok (.product product), log)

/-- The handler `updateProductHandler`, on the outcomes of `readIDParam` and
`readJSON`. -/
def updateProductHandler (a : App) (idParam : Except GoError Int)
    (body : Except GoError ProductPatch) : Response × List Statement :=
  match idParam with
  | .error _ => (.notFound, [])
  | .ok id =>
    match ProductModel.Get a.db id with
    | (.error err, log) =>
      if errorsIs err .mainErrRecordNotFound then (.notFound, log)
      else (.serverError err, log)
    | (.ok product, log) =>
      match body with
      | .error err => (.badRequest err, log)
      | .ok incomingData =>
        let product :=
          match incomingData.Name with
          | some x => { product with Name := x }
          | none => product
        let product :=
          match incomingData.Description with
          | some x => { product with Description := x }
          | none => product
        let product :=
          match incomingData.Category with
          | some x => { product with Category := x }
          | none => product
        let product :=
          match incomingData.Price with
          | some x => { product with Price := x }
          | none => product
        let product :=
          match incomingData.AverageRating with
          | some x => { product with AverageRating := x }
          | none => product
        let product :=
          match incomingData.ImageURL with
          | some x => { product with ImageURL := x }
          | none => product
        let v := ValidateProduct Validator.New product 1
        if !v.IsEmpty then (.failedValidation v.Errors, log)
        else
          match ProductModel.Update a.db product with
          | (.error err, log2) => (.serverError err, log ++ log2)
          | (.ok updated, log2) =>
            match a.writeErr with
            | some err => (.serverError err, log ++ log2)
            | none => (.ok (.product updated), log ++ log2)

/-- The handler `deleteProductHandler`, on the outcome of `readIDParam`. -/
def deleteProductHandler (a : App) (idParam : Except GoError Int) :
    Response × List Statement :=
  match idParam with
  | .error _ => (.notFound, [])
  | .ok id =>
    match ProductModel.Delete a.db id with
    | (some err, log) =>
      if errorsIs err .mainErrRecordNotFound then (.notFound, log)
      else (.serverError err, log)
    | (none, log) =>
      match a.writeErr with
      | some err => (.serverError err, log)
      | none => (.ok (.message "product successfully deleted"), log)

/-- The handler `deleteReviewHandler`, on the outcome of `readIDParam`. It
compares with the `ErrRecordNotFound` of package `data`. -/
def deleteReviewHandler (a : App) (idParam : Except GoError Int) :
    Response × List Statement :=
  match idParam with
  | .error _ => (.notFound, [])
  | .ok id =>
    match ReviewModel.Delete a.db id with
    | (some err, log) =>
      if errorsIs err .dataErrRecordNotFound then (.notFound, log)
      else (.serverError err, log)
    | (none, log) =>
      match a.writeErr with
      | some err => (.serverError err, log)
      | none => (.ok (.message "review successfully deleted"), log)

/-- The handler `createReviewHandler`, on the outcome of `readJSON`.
Dereferencing an absent field is a run-time panic. The line printed after the
envelope is left out. -/
def createReviewHandler (a : App) (body : Except GoError ReviewInput) :
    Result × List Statement :=
  match body with
  | .error err => (.response (.badRequest err), [])
  | .ok incomingData =>
    match incomingData.ProductID with
    | none => (.response (.badRequest (.other "product id is required")), [])
    | some productID =>
      match ProductModel.Exists a.db productID with
      | (.error err, log) => (.response (.serverError err), log)
      | (.ok false, log) => (.response .notFound, log)
      | (.ok true, log) =>
        let helpfulCount :=
          match incomingData.HelpfulCount with
          | some x => x
          | none => 0
        match incomingData.Author with
        | none => (.panic "nil pointer dereference", log)
        | some author =>
          match incomingData.Rating with
          | none => (.panic "nil pointer dereference", log)
          | some rating =>
            let review : Review :=
              { ID := 0, ProductID := productID, Author := author, Rating := rating,
                HelpfulCount := helpfulCount, CreatedAt := 0 }
            let v := ValidateReview Validator.New review
            if !v.IsEmpty then (.response (.failedValidation v.Errors), log)
            else
              match ReviewModel.Insert a.db review with
              | (.error err, log2) => (.response (.serverError err), log ++ log2)
              | (.ok stored, log2) =>
                match a.writeErr with
                | some err => (.response (.serverError err), log ++ log2)
                | none =>
                  (.response (.created ("/reviews/" ++ toString stored.ID) (.review stored)),
                   log ++ log2)

/-! ## A store over fixed tables -/

/-- What a list query answers over the rows `matching` that pass the filters, in
the requested order: the window cut by `LIMIT` and `OFFSET`, every row carrying
the count of all matching rows (`COUNT(*) OVER()`). -/
def sqlPage {α : Type} (matching : List α) (limit offset : Int) : Rows α :=
  { scanned :=
      ((matching.drop offset.toNat).take limit.toNat).map
        (fun x => .ok ((matching.length : Int), x)),
    err := none }

/-- The answer of the store to a list query whose last two bound arguments are
the limit and the offset; a negative limit or offset is refused. -/
def sqlSelect {α : Type} (matching : List α) (args : List SqlArg) : Except GoError (Rows α) :=
  match args.reverse with
  | .int offset :: .int limit :: _ =>
    if limit < 0 ∨ offset < 0 then .error (.other "LIMIT and OFFSET must not be negative")
    else .ok (sqlPage matching limit offset)
  | _ => .error (.other "bind message has the wrong parameters")

/-- A store holding the products and reviews given (the rows that pass the
filters of a list query, in the requested order). A single-row select answers
with the row of that identity, a delete affects the rows of that identity, and
insertions and updates are refused. -/
def tableDB (products : List Product) (reviews : List Review) : DB :=
  { insertProduct := fun _ => .error (.other "read-only"),
    selectProduct := fun args =>
      match args with
      | [.int id] =>
        match products.find? (fun p => decide (p.ID = id)) with
        | some p => .ok p
        | none => .error .sqlErrNoRows
      | _ => .error (.other "bind message has the wrong parameters"),
    selectProducts := fun _ _ args => sqlSelect products args,
    updateProduct := fun _ => .error (.other "read-only"),
    deleteProduct := fun args =>
      match args with
      | [.int id] => .ok (.ok ((products.filter (fun p => decide (p.ID = id))).length : Int))
      | _ => .error (.other "bind message has the wrong parameters"),
    existsProduct := fun args =>
      match args with
      | [.int id] => .ok (products.any (fun p => decide (p.ID = id)))
      | _ => .error (.other "bind message has the wrong parameters"),
    insertReview := fun _ => .error (.other "read-only"),
    selectReviews := fun _ _ args => sqlSelect reviews args,
    deleteReview := fun args =>
      match args with
      | [.int id] => .ok (.ok ((reviews.filter (fun r => decide (r.ID = id))).length : Int))
      | _ => .error (.other "bind message has the wrong parameters"),
    updateReview := fun _ => .error (.other "read-only") }

/-! ## Sample inputs -/

/-- A registry with one client last seen at instant 100 and one at instant 900. -/
def demoClients : Clients :=
  [("10.0.0.1", { limiter := NewLimiter 2 5, lastSeen := 100 }),
   ("10.0.0.2", { limiter := NewLimiter 2 5, lastSeen := 900 })]

/-- The default limiter configuration of `main`: two requests per second, burst
of five, enabled. -/
def demoConfig : LimiterConfig :=
  { rps := 2, burst := 5, enabled := true }

/-- A health-check request from client 10.0.0.1. -/
def demoRequest : Request :=
  { method := "GET", path := ["v1", "healthcheck"], hostPort := .ok ("10.0.0.1", "4000") }

/-- A next handler that answers every request with a message. -/
def demoNext : Request → Result :=
  fun _ => .response (.ok (.message "available"))

/-- Resource handlers that answer with a message. -/
def demoServe : Route → Request → Result :=
  fun _ _ => .response (.ok (.message "available"))

/-- A registry in which client 10.0.0.1 has spent its whole bucket at instant 100. -/
def drainedClients : Clients :=
  [("10.0.0.1", { limiter := { limit := 2, burst := 5, tokens := 0, last := 100 },
                  lastSeen := 100 })]

/-- A handler environment over a store with no product and no review. -/
def emptyApp : App :=
  { db := tableDB [] [], writeErr := none }

/-- An update payload that carries only a price. -/
def pricePatch : ProductPatch :=
  { Name := none, Description := none, Category := none, Price := some 25,
    AverageRating := none, ImageURL := none }

/-- A create-review payload that carries only the product identity 42. -/
def orphanReview : ReviewInput :=
  { ProductID := some 42, Author := none, Rating := none, HelpfulCount := none }

/-- A valid create-product payload with average rating 9/2. -/
def demoInput : ProductInput :=
  { Name := "Lamp", Description := "Desk lamp", Category := "Home", Price := 20,
    AverageRating := 9 / 2, ImageURL := "lamp.png" }

/-- A store that accepts every insertion and update and holds no row. -/
def writableDB : DB :=
  { tableDB [] [] with
    insertProduct := fun _ => .ok (1, 1000),
    updateProduct := fun _ => .ok 1,
    insertReview := fun _ => .ok 1,
    updateReview := fun _ => .ok 1 }

/-- A handler environment over the accepting store. -/
def writableApp : App :=
  { db := writableDB, writeErr := none }

/-- A review that meets every examined constraint and has a helpful count of -1. -/
def negativeHelpfulReview : Review :=
  { ID := 0, ProductID := 1, Author := "ann", Rating := 3, HelpfulCount := -1, CreatedAt := 0 }

/-- A stored product of identity 1. -/
def lamp : Product :=
  { ID := 1, Name := "Lamp", Description := "Desk lamp", Category := "Home", Price := 20,
    AverageRating := 9 / 2, ImageURL := "lamp.png", CreatedAt := 1000 }

/-- A store that holds the lamp and accepts updates. -/
def shopDB : DB :=
  { tableDB [lamp] [] with updateProduct := fun _ => .ok 1 }

/-- A handler environment over the store that holds the lamp. -/
def shopApp : App :=
  { db := shopDB, writeErr := none }

/-- The second page of a product listing, two rows per page, sorted by identity. -/
def pageTwo : Filters :=
  { Page := 2, PageSize := 2, SortKey := "id", SortSafeList := ["id", "name", "-id", "-name"] }

/-- A create-review payload for the stored product 1 with no author. -/
def authorlessReview : ReviewInput :=
  { ProductID := some 1, Author := none, Rating := some 3, HelpfulCount := none }

/-- A create-review payload for the stored product 1 with no rating. -/
def ratinglessReview : ReviewInput :=
  { ProductID := some 1, Author := some "ann", Rating := none, HelpfulCount := none }

/-- A health-check request from client 10.0.0.2. -/
def otherRequest : Request :=
  { method := "GET", path := ["v1", "healthcheck"], hostPort := .ok ("10.0.0.2", "5000") }

/-- A request whose remote address has no port. -/
def malformedRequest : Request :=
  { method := "GET", path := ["v1", "healthcheck"],
    hostPort := .error (.other "missing port in address") }

/-- Page `2 ^ 62 + 1` of a product listing, one hundred rows per page. -/
def farPage : Filters :=
  { Page := 4611686018427387905, PageSize := 100, SortKey := "id",
    SortSafeList := ["id", "name", "-id", "-name"] }

/-! ## Facts about Go maps -/

theorem mapGet_mapSet_same {α : Type} (m : List (String × α)) (k : String) (v : α) :
    mapGet (mapSet m k v) k = some v := by
  induction m with
  | nil => simp [mapSet, mapGet]
  | cons e rest ih =>
    obtain ⟨k0, v0⟩ := e
    by_cases h : k0 = k
    · simp [mapSet, mapGet, h]
    · simp [mapSet, mapGet, h, ih]

theorem mapGet_mapSet_other {α : Type} (m : List (String × α)) (k key : String) (v : α)
    (h : k ≠ key) : mapGet (mapSet m k v) key = mapGet m key := by
  induction m with
  | nil => simp [mapSet, mapGet, h]
  | cons e rest ih =>
    obtain ⟨k0, v0⟩ := e
    by_cases h0 : k0 = k
    · subst h0
      simp [mapSet, mapGet, h]
    · by_cases h1 : k0 = key
      · subst h1
        simp [mapSet, mapGet, h0]
      · simp [mapSet, mapGet, h0, h1, ih]

theorem mapGet_mapDelete {α : Type} (m : List (String × α)) (k key : String) :
    mapGet (mapDelete m k) key = if k = key then none else mapGet m key := by
  induction m with
  | nil => simp [mapDelete, mapGet]
  | cons e rest ih =>
    obtain ⟨k0, v0⟩ := e
    unfold mapDelete at ih ⊢
    by_cases h0 : k0 = k
    · subst h0
      by_cases h1 : k0 = key
      · simp [List.filter_cons, mapGet, h1] at ih ⊢
        simpa [h1] using ih
      · simp [List.filter_cons, mapGet, h1] at ih ⊢
        simpa [h1] using ih
    · by_cases h1 : k0 = key
      · subst h1
        simp [List.filter_cons, mapGet, h0]
        intro h2
        exact absurd h2.symm h0
      · simp [List.filter_cons, mapGet, h0, h1]
        simpa using ih

theorem mapGet_eq_none_of_not_mem {α : Type} (m : List (String × α)) (key : String)
    (h : ∀ e ∈ m, e.1 ≠ key) : mapGet m key = none := by
  induction m with
  | nil => rfl
  | cons e rest ih =>
    obtain ⟨k0, v0⟩ := e
    have h0 : k0 ≠ key := h (k0, v0) (List.mem_cons_self _ _)
    simp only [mapGet, h0, if_false]
    exact ih (fun e he => h e (List.mem_cons_of_mem _ he))

theorem mapGet_some_mem {α : Type} (m : List (String × α)) (key : String) (v : α)
    (h : mapGet m key = some v) : (key, v) ∈ m := by
  induction m with
  | nil => simp [mapGet] at h
  | cons e rest ih =>
    obtain ⟨k0, v0⟩ := e
    by_cases h0 : k0 = key
    · simp [mapGet, h0] at h
      simp [h0, h]
    · simp [mapGet, h0] at h
      exact List.mem_cons_of_mem _ (ih h)

theorem mapGet_none_not_mem {α : Type} (m : List (String × α)) (key : String)
    (h : mapGet m key = none) : ∀ e ∈ m, e.1 ≠ key := by
  induction m with
  | nil => simp
  | cons e rest ih =>
    obtain ⟨k0, v0⟩ := e
    by_cases h0 : k0 = key
    · simp [mapGet, h0] at h
    · simp [mapGet, h0] at h
      intro e he
      rcases List.mem_cons.mp he with rfl | he
      · exact h0
      · exact ih h e he

theorem mapGet_unique {α : Type} (m : List (String × α)) (hd : mapKeysDistinct m)
    (key : String) (v : α) (h : mapGet m key = some v) :
    ∀ e ∈ m, e.1 = key → e.2 = v := by
  induction m with
  | nil => simp
  | cons e rest ih =>
    obtain ⟨k0, v0⟩ := e
    unfold mapKeysDistinct at hd ih
    simp only [List.map_cons, List.nodup_cons] at hd
    intro e he hk
    by_cases h0 : k0 = key
    · simp [mapGet, h0] at h
      rcases List.mem_cons.mp he with rfl | he
      · exact h
      · exfalso
        apply hd.1
        rw [h0, ← hk]
        exact List.mem_map_of_mem Prod.fst he
    · simp [mapGet, h0] at h
      rcases List.mem_cons.mp he with rfl | he
      · exact absurd hk h0
      · exact ih hd.2 h e he hk

/-! ## Eviction sweep -/

theorem mapGet_sweep_fold (now : ℚ) (l acc : Clients) (ip : String) :
    mapGet (l.foldl
      (fun acc e => if now - e.2.lastSeen > 3 * 60 then mapDelete acc e.1 else acc) acc) ip
      = if (∃ e ∈ l, e.1 = ip ∧ now - e.2.lastSeen > 3 * 60) then none else mapGet acc ip := by
  induction l generalizing acc with
  | nil => simp
  | cons e rest ih =>
    rw [List.foldl_cons, ih]
    by_cases hrest : ∃ x ∈ rest, x.1 = ip ∧ now - x.2.lastSeen > 3 * 60
    · have hall : ∃ x ∈ e :: rest, x.1 = ip ∧ now - x.2.lastSeen > 3 * 60 := by
        obtain ⟨x, hx, hp⟩ := hrest
        exact ⟨x, List.mem_cons_of_mem _ hx, hp⟩
      rw [if_pos hrest, if_pos hall]
    · rw [if_neg hrest]
      by_cases hs : now - e.2.lastSeen > 3 * 60
      · rw [if_pos hs, mapGet_mapDelete]
        by_cases hk : e.1 = ip
        · have hall : ∃ x ∈ e :: rest, x.1 = ip ∧ now - x.2.lastSeen > 3 * 60 :=
            ⟨e, List.mem_cons_self _ _, hk, hs⟩
          rw [if_pos hk, if_pos hall]
        · have hall : ¬ ∃ x ∈ e :: rest, x.1 = ip ∧ now - x.2.lastSeen > 3 * 60 := by
            rintro ⟨x, hx, hp⟩
            rcases List.mem_cons.mp hx with rfl | hx
            · exact hk hp.1
            · exact hrest ⟨x, hx, hp⟩
          rw [if_neg hk, if_neg hall]
      · have hall : ¬ ∃ x ∈ e :: rest, x.1 = ip ∧ now - x.2.lastSeen > 3 * 60 := by
          rintro ⟨x, hx, hp⟩
          rcases List.mem_cons.mp hx with rfl | hx
          · exact hs hp.2
          · exact hrest ⟨x, hx, hp⟩
        rw [if_neg hs, if_neg hall]

/-- C3: on a registry with distinct keys, one pass of the eviction sweep at
instant `now` removes exactly the entries last seen more than three minutes
before `now`: such an entry is absent afterwards, an entry seen within three
minutes is still present with the same limiter and lastSeen, and no entry
appears that was absent before. -/
theorem sweep_removes_exactly_stale (now : ℚ) (clients : Clients)
    (hd : mapKeysDistinct clients) :
    (∀ ip c, mapGet clients ip = some c → now - c.lastSeen > 3 * 60 →
        mapGet (sweep now clients) ip = none) ∧
    (∀ ip c, mapGet clients ip = some c → now - c.lastSeen ≤ 3 * 60 →
        mapGet (sweep now clients) ip = some c) ∧
    (∀ ip, mapGet clients ip = none → mapGet (sweep now clients) ip = none) := by
  refine ⟨?_, ?_, ?_⟩
  · intro ip c hc hs
    unfold sweep
    rw [mapGet_sweep_fold, if_pos]
    exact ⟨(ip, c), mapGet_some_mem clients ip c hc, rfl, hs⟩
  · intro ip c hc hs
    unfold sweep
    rw [mapGet_sweep_fold, if_neg, hc]
    rintro ⟨e, he, hk, hst⟩
    have hv := mapGet_unique clients hd ip c hc e he hk
    rw [hv] at hst
    exact absurd hst (not_lt.mpr hs)
  · intro ip hc
    unfold sweep
    rw [mapGet_sweep_fold, hc]
    simp

/-- Witness for C3: a registry with one stale and one recent client, swept at
instant 1000. -/
theorem sweep_removes_exactly_stale_witness :
    mapKeysDistinct demoClients ∧
    ((∀ ip c, mapGet demoClients ip = some c → (1000 : ℚ) - c.lastSeen > 3 * 60 →
        mapGet (sweep 1000 demoClients) ip = none) ∧
    (∀ ip c, mapGet demoClients ip = some c → (1000 : ℚ) - c.lastSeen ≤ 3 * 60 →
        mapGet (sweep 1000 demoClients) ip = some c) ∧
    (∀ ip, mapGet demoClients ip = none → mapGet (sweep 1000 demoClients) ip = none)) :=
  ⟨by unfold mapKeysDistinct demoClients; decide,
   sweep_removes_exactly_stale 1000 demoClients (by unfold mapKeysDistinct demoClients; decide)⟩

/-! ## Admission control -/

theorem rateLimit_found (cfg : LimiterConfig) (next : Request → Result) (now : ℚ)
    (r : Request) (clients : Clients) (ip port : String) (c : Client)
    (he : cfg.enabled = true) (hr : r.hostPort = .ok (ip, port))
    (hc : mapGet clients ip = some c) :
    rateLimit cfg next now r clients =
      (if (c.limiter.Allow now).1 then next r else .response .rateLimitExceeded,
       mapSet clients ip { limiter := (c.limiter.Allow now).2, lastSeen := now }) := by
  unfold rateLimit
  simp only [he, hr, hc, if_true]
  cases (c.limiter.Allow now).1 <;> simp

theorem rateLimit_fresh (cfg : LimiterConfig) (next : Request → Result) (now : ℚ)
    (r : Request) (clients : Clients) (ip port : String)
    (he : cfg.enabled = true) (hr : r.hostPort = .ok (ip, port))
    (hc : mapGet clients ip = none) :
    rateLimit cfg next now r clients =
      (if ((NewLimiter cfg.rps cfg.burst).Allow now).1 then next r
        else .response .rateLimitExceeded,
       mapSet (mapSet clients ip { limiter := NewLimiter cfg.rps cfg.burst, lastSeen := 0 }) ip
        { limiter := ((NewLimiter cfg.rps cfg.burst).Allow now).2, lastSeen := now }) := by
  unfold rateLimit
  simp only [he, hr, hc, if_true, mapGet_mapSet_same]
  cases ((NewLimiter cfg.rps cfg.burst).Allow now).1 <;> simp

theorem serveAll_cons (h : ℚ → Request → Clients → Result × Clients) (now : ℚ)
    (r : Request) (rest : List (ℚ × Request)) (clients : Clients) :
    serveAll h ((now, r) :: rest) clients
      = ((h now r clients).1 :: (serveAll h rest (h now r clients).2).1,
         (serveAll h rest (h now r clients).2).2) := rfl

theorem Limiter.advance_same_instant (R : ℚ) (B : Int) (n : ℕ) (t : ℚ)
    (hn : (n : ℚ) ≤ (B : ℚ)) :
    Limiter.advance { limit := R, burst := B, tokens := (n : ℚ), last := t } t = (n : ℚ) := by
  unfold Limiter.advance
  simp only [sub_self, max_self, zero_mul, ite_self, add_zero]
  exact min_eq_right hn

theorem serveAll_burst (cfg : LimiterConfig) (next : Request → Result) (r : Request)
    (ip port : String) (t : ℚ) (he : cfg.enabled = true)
    (hr : r.hostPort = .ok (ip, port)) (n : ℕ) :
    ∀ (clients : Clients) (ls : ℚ), (n : ℚ) ≤ (cfg.burst : ℚ) →
      mapGet clients ip = some
        { limiter := { limit := cfg.rps, burst := cfg.burst, tokens := (n : ℚ), last := t },
          lastSeen := ls } →
      (serveAll (rateLimit cfg next) (List.replicate (n + 1) (t, r)) clients).1
          = List.replicate n (next r) ++ [.response .rateLimitExceeded] ∧
      mapGet (serveAll (rateLimit cfg next) (List.replicate (n + 1) (t, r)) clients).2 ip
          = some
        { limiter := { limit := cfg.rps, burst := cfg.burst, tokens := 0, last := t },
          lastSeen := t } := by
  induction n with
  | zero =>
    intro clients ls hn hc
    have hstep := rateLimit_found cfg next t r clients ip port _ he hr hc
    have hadv := Limiter.advance_same_instant cfg.rps cfg.burst 0 t hn
    simp only [Nat.cast_zero] at hadv hstep
    rw [List.replicate_succ, serveAll_cons, hstep]
    simp only [List.replicate, serveAll, Limiter.Allow, hadv]
    norm_num [mapGet_mapSet_same]
  | succ n ih =>
    intro clients ls hn hc
    have hstep := rateLimit_found cfg next t r clients ip port _ he hr hc
    have hadv := Limiter.advance_same_instant cfg.rps cfg.burst (n + 1) t hn
    have h1 : (1 : ℚ) ≤ ((n + 1 : ℕ) : ℚ) := by
      push_cast
      have : (0 : ℚ) ≤ (n : ℚ) := Nat.cast_nonneg n
      linarith
    have htok : ((n + 1 : ℕ) : ℚ) - 1 = (n : ℚ) := by
      push_cast
      ring
    have hn2 : (n : ℚ) ≤ (cfg.burst : ℚ) := by
      have : ((n + 1 : ℕ) : ℚ) = (n : ℚ) + 1 := by push_cast; ring
      linarith
    rw [List.replicate_succ, serveAll_cons, hstep]
    simp only [Limiter.Allow, hadv, h1, if_true, htok]
    have hnext := ih
      (mapSet clients ip
        { limiter := { limit := cfg.rps, burst := cfg.burst, tokens := (n : ℚ), last := t },
          lastSeen := t }) t hn2 (mapGet_mapSet_same _ _ _)
    refine ⟨?_, hnext.2⟩
    rw [hnext.1]
    simp [List.replicate_succ]

/-- C2: with the limiter enabled, a rate above zero and a burst `B` of at least
one, a client with no registry entry that issues `B + 1` requests at one instant
`t` has the first `B` passed to the next handler and the last one answered with
the rate-limit-exceeded response; one request at `t + 1 / rate` is passed on, and
a second one at that same instant is rejected. -/
theorem rateLimit_burst_then_refill (cfg : LimiterConfig) (B : ℕ) (next : Request → Result)
    (r : Request) (ip port : String) (clients : Clients) (t : ℚ)
    (he : cfg.enabled = true) (hR : 0 < cfg.rps) (hB : cfg.burst = (B : Int)) (hB1 : 1 ≤ B)
    (hr : r.hostPort = .ok (ip, port)) (hc : mapGet clients ip = none) :
    (serveAll (rateLimit cfg next) (List.replicate (B + 1) (t, r)) clients).1
        = List.replicate B (next r) ++ [.response .rateLimitExceeded] ∧
    (rateLimit cfg next (t + 1 / cfg.rps) r
        (serveAll (rateLimit cfg next) (List.replicate (B + 1) (t, r)) clients).2).1
        = next r ∧
    (rateLimit cfg next (t + 1 / cfg.rps) r
        (rateLimit cfg next (t + 1 / cfg.rps) r
          (serveAll (rateLimit cfg next) (List.replicate (B + 1) (t, r)) clients).2).2).1
        = .response .rateLimitExceeded := by
  obtain ⟨m, rfl⟩ : ∃ m, B = m + 1 := ⟨B - 1, by omega⟩
  have hburst : (cfg.burst : ℚ) = (m : ℚ) + 1 := by
    rw [hB]
    push_cast
    ring
  -- the first request creates the entry with a full bucket
  have hfirst := rateLimit_fresh cfg next t r clients ip port he hr hc
  have hadv0 : (NewLimiter cfg.rps cfg.burst).advance t = (cfg.burst : ℚ) := by
    unfold Limiter.advance NewLimiter
    simp only [not_le.mpr hR, if_false]
    apply min_eq_left
    have h0 : (0 : ℚ) ≤ max 0 (t - 0) * cfg.rps :=
      mul_nonneg (le_max_left _ _) (le_of_lt hR)
    linarith
  have h1B : (1 : ℚ) ≤ (cfg.burst : ℚ) := by
    rw [hburst]
    have : (0 : ℚ) ≤ (m : ℚ) := Nat.cast_nonneg m
    linarith
  have htok : (cfg.burst : ℚ) - 1 = (m : ℚ) := by
    rw [hburst]
    ring
  have hAllow0 : (NewLimiter cfg.rps cfg.burst).Allow t
      = (true, { limit := cfg.rps, burst := cfg.burst, tokens := (m : ℚ), last := t }) := by
    unfold Limiter.Allow
    simp only [hadv0, h1B, if_true, htok]
    rfl
  rw [hAllow0] at hfirst
  simp only [if_true] at hfirst
  have hm : (m : ℚ) ≤ (cfg.burst : ℚ) := by
    rw [hburst]
    linarith
  have hrest := serveAll_burst cfg next r ip port t he hr m
    (mapSet (mapSet clients ip { limiter := NewLimiter cfg.rps cfg.burst, lastSeen := 0 }) ip
      { limiter := { limit := cfg.rps, burst := cfg.burst, tokens := (m : ℚ), last := t },
        lastSeen := t }) t hm (mapGet_mapSet_same _ _ _)
  have hrun : serveAll (rateLimit cfg next) (List.replicate (m + 1 + 1) (t, r)) clients
      = (next r :: (serveAll (rateLimit cfg next) (List.replicate (m + 1) (t, r))
          (mapSet (mapSet clients ip
            { limiter := NewLimiter cfg.rps cfg.burst, lastSeen := 0 }) ip
            { limiter := { limit := cfg.rps, burst := cfg.burst, tokens := (m : ℚ), last := t },
              lastSeen := t })).1,
         (serveAll (rateLimit cfg next) (List.replicate (m + 1) (t, r))
          (mapSet (mapSet clients ip
            { limiter := NewLimiter cfg.rps cfg.burst, lastSeen := 0 }) ip
            { limiter := { limit := cfg.rps, burst := cfg.burst, tokens := (m : ℚ), last := t },
              lastSeen := t })).2) := by
    rw [List.replicate_succ, serveAll_cons, hfirst]
  rw [hrun]
  simp only []
  -- the request one refill period later
  have hadv1 : Limiter.advance
      { limit := cfg.rps, burst := cfg.burst, tokens := 0, last := t } (t + 1 / cfg.rps)
      = 1 := by
    unfold Limiter.advance
    have hpos : (0 : ℚ) ≤ 1 / cfg.rps := le_of_lt (one_div_pos.mpr hR)
    have hel : t + 1 / cfg.rps - t = 1 / cfg.rps := by ring
    simp only [not_le.mpr hR, if_false, hel, max_eq_right hpos, zero_add]
    rw [one_div_mul_cancel (ne_of_gt hR)]
    exact min_eq_right h1B
  have hlater := rateLimit_found cfg next (t + 1 / cfg.rps) r _ ip port _ he hr hrest.2
  have hAllow1 : Limiter.Allow
      { limit := cfg.rps, burst := cfg.burst, tokens := 0, last := t } (t + 1 / cfg.rps)
      = (true, { limit := cfg.rps, burst := cfg.burst, tokens := 0,
                 last := t + 1 / cfg.rps }) := by
    unfold Limiter.Allow
    simp only [hadv1, le_refl, if_true, sub_self]
  rw [hAllow1] at hlater
  simp only [if_true] at hlater
  have hagain := rateLimit_found cfg next (t + 1 / cfg.rps) r
    (mapSet (serveAll (rateLimit cfg next) (List.replicate (m + 1) (t, r))
          (mapSet (mapSet clients ip
            { limiter := NewLimiter cfg.rps cfg.burst, lastSeen := 0 }) ip
            { limiter := { limit := cfg.rps, burst := cfg.burst, tokens := (m : ℚ), last := t },
              lastSeen := t })).2 ip
      { limiter := { limit := cfg.rps, burst := cfg.burst, tokens := 0,
                     last := t + 1 / cfg.rps },
        lastSeen := t + 1 / cfg.rps }) ip port _ he hr (mapGet_mapSet_same _ _ _)
  have hadv2 := Limiter.advance_same_instant cfg.rps cfg.burst 0 (t + 1 / cfg.rps)
    (by simpa using le_trans zero_le_one h1B)
  simp only [Nat.cast_zero] at hadv2
  have hAllow2 : (Limiter.Allow
      { limit := cfg.rps, burst := cfg.burst, tokens := 0, last := t + 1 / cfg.rps }
      (t + 1 / cfg.rps)).1 = false := by
    unfold Limiter.Allow
    simp only [hadv2]
    norm_num
  rw [hAllow2] at hagain
  refine ⟨?_, ?_, ?_⟩
  · rw [hrest.1]
    simp [List.replicate_succ]
  · rw [hlater]
  · rw [hlater]
    simp only []
    rw [hagain]
    simp

/-- Witness for C2: the default configuration (two requests per second, burst of
five) and a client unknown to an empty registry, at instant 0. -/
theorem rateLimit_burst_then_refill_witness :
    (serveAll (rateLimit demoConfig demoNext) (List.replicate (5 + 1) (0, demoRequest)) []).1
        = List.replicate 5 (demoNext demoRequest) ++ [.response .rateLimitExceeded] ∧
    (rateLimit demoConfig demoNext (0 + 1 / demoConfig.rps) demoRequest
        (serveAll (rateLimit demoConfig demoNext)
          (List.replicate (5 + 1) (0, demoRequest)) []).2).1
        = demoNext demoRequest ∧
    (rateLimit demoConfig demoNext (0 + 1 / demoConfig.rps) demoRequest
        (rateLimit demoConfig demoNext (0 + 1 / demoConfig.rps) demoRequest
          (serveAll (rateLimit demoConfig demoNext)
            (List.replicate (5 + 1) (0, demoRequest)) []).2).2).1
        = .response .rateLimitExceeded :=
  rateLimit_burst_then_refill demoConfig 5 demoNext demoRequest "10.0.0.1" "4000" [] 0
    rfl (by norm_num [demoConfig]) rfl (by decide) rfl rfl

/-- C1, evaluated on the code: with the limiter enabled and the bucket of client
10.0.0.1 empty at instant 100, the rate limiter wrapped around the router rejects
the request, but the chain returned by `routes` holds no rate limiter and hands
the request to the health-check handler. -/
theorem routes_bypasses_rateLimit :
    (rateLimit demoConfig (router demoServe) 100 demoRequest drainedClients).1
        = .response .rateLimitExceeded ∧
    routes demoServe demoRequest = demoServe .healthCheck demoRequest ∧
    demoServe .healthCheck demoRequest ≠ .response .rateLimitExceeded := by
  refine ⟨?_, ?_, ?_⟩
  · rw [rateLimit_found demoConfig (router demoServe) 100 demoRequest drainedClients
      "10.0.0.1" "4000"
      { limiter := { limit := 2, burst := 5, tokens := 0, last := 100 }, lastSeen := 100 }
      rfl rfl (by simp [drainedClients, mapGet])]
    have hadv := Limiter.advance_same_instant 2 5 0 100 (by norm_num)
    simp only [Nat.cast_zero] at hadv
    simp only [Limiter.Allow, hadv]
    norm_num
  · simp [routes, recoverPanic, router, routeTable, demoRequest, mapGet, demoServe]
  · simp [demoServe]

/-! ## Product handlers and record-not-found -/

/-- C4, evaluated on the code: over a store with no product, `Get` and `Delete`
report the record-not-found error of package `data` for identities 7 and 0, and
the three product handlers answer identity 7 with the server-error response,
because they compare with the `ErrRecordNotFound` of package `main`; the review
delete handler, which compares with the one of package `data`, answers with
the not-found response. -/
theorem product_handlers_answer_server_error :
    (ProductModel.Get emptyApp.db 7).1 = .error .dataErrRecordNotFound ∧
    (ProductModel.Get emptyApp.db 0).1 = .error .dataErrRecordNotFound ∧
    (ProductModel.Delete emptyApp.db 7).1 = some .dataErrRecordNotFound ∧
    (displayProductHandler emptyApp (.ok 7)).1 = .serverError .dataErrRecordNotFound ∧
    (updateProductHandler emptyApp (.ok 7) (.ok pricePatch)).1
      = .serverError .dataErrRecordNotFound ∧
    (deleteProductHandler emptyApp (.ok 7)).1 = .serverError .dataErrRecordNotFound ∧
    (deleteReviewHandler emptyApp (.ok 7)).1 = .notFound := by
  simp [emptyApp, tableDB, ProductModel.Get, ProductModel.Delete, ReviewModel.Delete,
    displayProductHandler, updateProductHandler, deleteProductHandler, deleteReviewHandler,
    errorsIs]

/-! ## Review creation -/

/-- C7: when the payload of a create-review request carries a product identity
for which `ProductModel.Exists` answers false without error, the handler
answers with the not-found response, whatever the other fields are, and issues
no insert statement. -/
theorem createReview_missing_product (a : App) (input : ReviewInput) (pid : Int)
    (hpid : input.ProductID = some pid)
    (hex : (ProductModel.Exists a.db pid).1 = .ok false) :
    (createReviewHandler a (.ok input)).1 = .response .notFound ∧
    ∀ s ∈ (createReviewHandler a (.ok input)).2, s.query ≠ .insertReview := by
  unfold createReviewHandler
  simp only [hpid]
  unfold ProductModel.Exists at hex ⊢
  cases hdb : a.db.existsProduct [.int pid] with
  | error err => simp [hdb] at hex
  | ok found =>
    simp only [hdb] at hex
    cases found with
    | true => simp at hex
    | false => simp

/-- Witness for C7: a payload with only the product identity 42, over a store
with no product. -/
theorem createReview_missing_product_witness :
    (createReviewHandler emptyApp (.ok orphanReview)).1 = .response .notFound ∧
    ∀ s ∈ (createReviewHandler emptyApp (.ok orphanReview)).2, s.query ≠ .insertReview :=
  createReview_missing_product emptyApp orphanReview 42 rfl
    (by simp [ProductModel.Exists, emptyApp, tableDB])

/-! ## Insert -/

/-- C10, evaluated on the code: a product with average rating 9/2 passes
validation and is created, and the insert statement issued binds the integer 0,
not 9/2, to the fifth placeholder (the average rating column). -/
theorem insert_binds_zero_rating :
    demoInput.AverageRating = 9 / 2 ∧
    (createProductHandler writableApp (.ok demoInput)).2
      = [{ query := .insertProduct,
           args := [.text "Lamp", .text "Desk lamp", .text "Home", .real 20, .int 0,
             .text "lamp.png"] }] ∧
    (∀ db product, ((ProductModel.Insert db product).2.map (fun s => s.args.get? 4))
      = [some (.int 0)]) := by
  refine ⟨rfl, ?_, ?_⟩
  · simp [createProductHandler, demoInput, ValidateProduct, Validator.Check, Validator.New,
      Validator.IsEmpty, Validator.AddError, len, writableApp, writableDB, ProductModel.Insert]
    decide
  · intro db product
    simp only [ProductModel.Insert]
    split <;> rfl

/-! ## Validation -/

theorem len_empty : len "" = 0 := by decide

theorem mapGet_ne_none_not_nil {α : Type} (m : List (String × α)) (key : String) (v : α)
    (h : mapGet m key = some v) : m.isEmpty = false := by
  cases m with
  | nil => simp [mapGet] at h
  | cons e rest => rfl

theorem mapSet_not_nil {α : Type} (m : List (String × α)) (key : String) (v : α) :
    (mapSet m key v).isEmpty = false := by
  cases m with
  | nil => rfl
  | cons e rest =>
    obtain ⟨k0, v0⟩ := e
    by_cases h : k0 = key <;> simp [mapSet, h]

theorem Validator.isEmpty_check (v : Validator) (ok : Bool) (key message : String) :
    (v.Check ok key message).IsEmpty = (v.IsEmpty && ok) := by
  cases ok with
  | true => simp [Validator.Check]
  | false =>
    simp only [Validator.Check, Bool.not_false, if_true, Validator.AddError, Bool.and_false]
    cases h : mapGet v.Errors key with
    | some old => exact mapGet_ne_none_not_nil _ _ _ h
    | none => exact mapSet_not_nil _ _ _

theorem Validator.key_check (v : Validator) (ok : Bool) (key message k : String) :
    (mapGet (v.Check ok key message).Errors k).isSome
      = ((mapGet v.Errors k).isSome || (!ok && decide (k = key))) := by
  cases ok with
  | true => simp [Validator.Check]
  | false =>
    simp only [Validator.Check, Bool.not_false, if_true, Validator.AddError, Bool.true_and]
    by_cases hk : k = key
    · subst hk
      cases h : mapGet v.Errors k with
      | some old => simp [h]
      | none => simp [mapGet_mapSet_same]
    · have hk2 : key ≠ k := fun h => hk h.symm
      cases h : mapGet v.Errors key with
      | some old => simp [hk]
      | none => simp [hk, mapGet_mapSet_other _ _ _ _ hk2]

/-- C8: on a fresh validator, `ValidateProduct` with handler 1 records nothing
exactly when name, description and category are non-empty and at most 100 bytes
long, the average rating is not zero and the image URL is non-empty; and a field
key carries an error exactly when it is the key of a violated field among name,
description, category, average_rating and image_url. -/
theorem validateProduct_fresh (product : Product) :
    ((ValidateProduct Validator.New product 1).IsEmpty = true ↔
      (product.Name ≠ "" ∧ len product.Name ≤ 100) ∧
      (product.Description ≠ "" ∧ len product.Description ≤ 100) ∧
      (product.Category ≠ "" ∧ len product.Category ≤ 100) ∧
      product.AverageRating ≠ 0 ∧ product.ImageURL ≠ "") ∧
    ∀ key : String,
      (mapGet (ValidateProduct Validator.New product 1).Errors key).isSome = true ↔
        (key = "name" ∧ ¬ (product.Name ≠ "" ∧ len product.Name ≤ 100)) ∨
        (key = "description" ∧ ¬ (product.Description ≠ "" ∧ len product.Description ≤ 100)) ∨
        (key = "category" ∧ ¬ (product.Category ≠ "" ∧ len product.Category ≤ 100)) ∨
        (key = "average_rating" ∧ product.AverageRating = 0) ∨
        (key = "image_url" ∧ product.ImageURL = "") := by
  refine ⟨?_, ?_⟩
  · simp only [ValidateProduct, if_true, Validator.isEmpty_check]
    simp only [Validator.New, Validator.IsEmpty, List.isEmpty_nil, Bool.true_and,
      Bool.and_eq_true, bne_iff_ne, decide_eq_true_eq, ne_eq]
    tauto
  · intro key
    simp only [ValidateProduct, if_true, Validator.key_check]
    simp only [Validator.New, mapGet, Option.isSome_none, Bool.false_or, Bool.or_eq_true,
      Bool.and_eq_true, Bool.not_eq_true', bne_eq_false_iff_eq, decide_eq_false_iff_not,
      decide_eq_true_eq, ne_eq]
    tauto

/-- C9 as stated fails: a review with author, rating and product reference in
range and a helpful count of -1 leaves a fresh validator empty. -/
theorem validateReview_ignores_helpful_count :
    ¬ ((ValidateReview Validator.New negativeHelpfulReview).IsEmpty = true ↔
        (negativeHelpfulReview.Author ≠ "" ∧ len negativeHelpfulReview.Author ≤ 25) ∧
        (1 ≤ negativeHelpfulReview.Rating ∧ negativeHelpfulReview.Rating ≤ 5) ∧
        0 < negativeHelpfulReview.ProductID ∧
        0 ≤ negativeHelpfulReview.HelpfulCount) := by
  intro h
  have hempty : (ValidateReview Validator.New negativeHelpfulReview).IsEmpty = true := by
    decide
  have hcount := (h.mp hempty).2.2.2
  revert hcount
  decide

/-- C9, amended: on a fresh validator, `ValidateReview` records nothing exactly
when the author is non-empty and at most 25 bytes long, the rating lies in
1..5 and the product reference is positive; the helpful count is not examined. -/
theorem validateReview_fresh (review : Review) :
    (ValidateReview Validator.New review).IsEmpty = true ↔
      (review.Author ≠ "" ∧ len review.Author ≤ 25) ∧
      (1 ≤ review.Rating ∧ review.Rating ≤ 5) ∧
      0 < review.ProductID := by
  obtain ⟨id, pid, author, rating, helpful, created⟩ := review
  simp only [ValidateReview]
  by_cases h1 : author = "" <;> by_cases h2 : len author ≤ 25 <;>
    by_cases h3 : 0 < pid <;> by_cases h4 : 1 ≤ rating <;> by_cases h5 : rating ≤ 5 <;>
    simp [Validator.Check, Validator.AddError, Validator.New, Validator.IsEmpty, mapGet,
      mapSet, h1, h2, h3, h4, h5]

/-! ## Partial update -/

theorem ProductModel.get_log (db : DB) (id : Int) :
    ∀ s ∈ (ProductModel.Get db id).2, s.query = .selectProduct := by
  intro s hs
  unfold ProductModel.Get at hs
  split_ifs at hs with h1
  · simp at hs
  · split at hs
    · split_ifs at hs <;> simp at hs <;> simp [hs]
    · simp at hs
      simp [hs]

theorem ProductModel.update_head (db : DB) (product : Product) :
    (ProductModel.Update db product).2.head?
      = some { query := .updateProduct,
               args := [.text product.Name, .text product.Description, .text product.Category,
                 .real product.Price, .text product.ImageURL, .real product.AverageRating,
                 .int product.ID] } := by
  simp only [ProductModel.Update]
  split
  · rfl
  · split <;> rfl

theorem ProductModel.update_result (db : DB) (product updated : Product)
    (h : (ProductModel.Update db product).1 = .ok updated) :
    updated = { product with ID := updated.ID } := by
  simp only [ProductModel.Update] at h
  split at h
  · simp at h
  · split at h
    · simp at h
    · simp only [Except.ok.injEq] at h
      rw [← h]

/-- C6: when `Get` returns the stored product, the entity that
`updateProductHandler` validates and hands to `Update` has, for each of name,
description, category, price, average rating and image URL, the value of the
payload when the field is present and the stored value when it is absent, with
the stored identity and creation time. If validation records nothing, the
handler issues the statements of `Get` followed by those of `Update` on this
merged entity, the first of which binds its fields, and answers with the outcome
of `Update` on the merged entity: the entity written back keeps every field of
the merged one, the stored creation time included, but for the identity the
store returns. Otherwise it answers with the validation errors of the merged
entity and issues no update statement. -/
theorem updateProduct_merges (a : App) (id : Int) (stored : Product) (patch : ProductPatch)
    (hget : (ProductModel.Get a.db id).1 = .ok stored) :
    let merged : Product :=
      { ID := stored.ID,
        Name := patch.Name.getD stored.Name,
        Description := patch.Description.getD stored.Description,
        Category := patch.Category.getD stored.Category,
        Price := patch.Price.getD stored.Price,
        AverageRating := patch.AverageRating.getD stored.AverageRating,
        ImageURL := patch.ImageURL.getD stored.ImageURL,
        CreatedAt := stored.CreatedAt }
    ((ValidateProduct Validator.New merged 1).IsEmpty = true →
      (updateProductHandler a (.ok id) (.ok patch)).2
        = (ProductModel.Get a.db id).2 ++ (ProductModel.Update a.db merged).2 ∧
      (ProductModel.Update a.db merged).2.head?
        = some { query := .updateProduct,
                 args := [.text merged.Name, .text merged.Description, .text merged.Category,
                   .real merged.Price, .text merged.ImageURL, .real merged.AverageRating,
                   .int merged.ID] } ∧
      (updateProductHandler a (.ok id) (.ok patch)).1
        = (match (ProductModel.Update a.db merged).1 with
           | .error err => Response.serverError err
           | .ok updated =>
             match a.writeErr with
             | some err => Response.serverError err
             | none => Response.ok (.product updated)) ∧
      (∀ updated : Product, (ProductModel.Update a.db merged).1 = .ok updated →
        updated = { merged with ID := updated.ID } ∧
        updated.CreatedAt = stored.CreatedAt)) ∧
    ((ValidateProduct Validator.New merged 1).IsEmpty = false →
      (updateProductHandler a (.ok id) (.ok patch)).1
        = .failedValidation (ValidateProduct Validator.New merged 1).Errors ∧
      ∀ s ∈ (updateProductHandler a (.ok id) (.ok patch)).2, s.query ≠ .updateProduct) := by
  have hlog := ProductModel.get_log a.db id
  rcases hG : ProductModel.Get a.db id with ⟨res, log⟩
  rw [hG] at hget hlog
  simp only at hget hlog
  subst hget
  have hno : ∀ s ∈ log, s.query ≠ Query.updateProduct := by
    intro s hs h
    have := hlog s hs
    rw [this] at h
    exact absurd h (by decide)
  obtain ⟨pn, pd, pc, pp, pr, pi⟩ := patch
  obtain ⟨sid, sn, sd, sc, sp, sr, si, st⟩ := stored
  cases pn <;> cases pd <;> cases pc <;> cases pp <;> cases pr <;> cases pi <;>
    (simp only [updateProductHandler, hG, Option.getD]
     refine ⟨fun hv => ⟨?_, ProductModel.update_head _ _, ?_, ?_⟩, fun hv => ?_⟩
     · simp only [hv, Bool.not_true, Bool.false_eq_true, if_false]
       rcases hU : ProductModel.Update a.db _ with ⟨ures, ulog⟩
       cases ures <;> cases a.writeErr <;> rfl
     · simp only [hv, Bool.not_true, Bool.false_eq_true, if_false]
       rcases hU : ProductModel.Update a.db _ with ⟨ures, ulog⟩
       cases ures <;> cases a.writeErr <;> rfl
     · intro updated hu
       have hres := ProductModel.update_result _ _ _ hu
       exact ⟨hres, by rw [hres]⟩
     · simp only [hv, Bool.not_false, if_true]
       exact ⟨trivial, hno⟩)

/-- Witness for C6: the stored lamp of identity 1 and a payload that carries
only a price: the statements are those of `Get` and of `Update` on the lamp with
the new price, and the answer is that lamp, created at instant 1000 as stored. -/
theorem updateProduct_merges_witness :
    (ProductModel.Get shopApp.db 1).1 = .ok lamp ∧
    (updateProductHandler shopApp (.ok 1) (.ok pricePatch)).2
      = (ProductModel.Get shopApp.db 1).2
        ++ (ProductModel.Update shopApp.db { lamp with Price := 25 }).2 ∧
    (updateProductHandler shopApp (.ok 1) (.ok pricePatch)).1
      = .ok (.product { lamp with Price := 25 }) := by
  have hget : (ProductModel.Get shopApp.db 1).1 = .ok lamp := by
    simp [ProductModel.Get, shopApp, shopDB, tableDB, lamp]
  have h := (updateProduct_merges shopApp 1 lamp pricePatch hget).1
    (by
      simp only [ValidateProduct, if_true, Validator.isEmpty_check]
      simp [pricePatch, lamp, Validator.New, Validator.IsEmpty, len]
      try decide)
  refine ⟨hget, h.1, ?_⟩
  rw [h.2.2.1]
  simp [ProductModel.Update, shopApp, shopDB, pricePatch, lamp]

/-! ## List queries and metadata -/

theorem wrapInt64_of_range (x : Int) (h0 : 0 ≤ x) (h1 : x < 2 ^ 63) : wrapInt64 x = x := by
  unfold wrapInt64
  omega

theorem scanRows_counted {α : Type} (T : Int) (l : List α) (t0 : Int) (acc : List α) :
    scanRows (l.map (fun x => (Except.ok (T, x) : Except GoError (Int × α)))) t0 acc
      = .ok (if l.isEmpty then t0 else T, acc ++ l) := by
  induction l generalizing t0 acc with
  | nil => simp [scanRows]
  | cons x rest ih =>
    simp only [List.map_cons, scanRows, ih]
    cases rest <;> simp

theorem sqlPage_window_ne_nil {α : Type} (matching : List α) (limit offset : Int)
    (hl : 1 ≤ limit) (h0 : 0 ≤ offset) (h1 : offset < (matching.length : Int)) :
    ((matching.drop offset.toNat).take limit.toNat).isEmpty = false := by
  cases h : (matching.drop offset.toNat).take limit.toNat with
  | cons x rest => rfl
  | nil =>
    have hlen := congrArg List.length h
    simp only [List.length_take, List.length_drop, List.length_nil] at hlen
    omega

theorem sqlPage_window_nil {α : Type} (matching : List α) (limit offset : Int)
    (h0 : 0 ≤ offset) (h1 : (matching.length : Int) ≤ offset) :
    (matching.drop offset.toNat).take limit.toNat = [] := by
  have hd : matching.drop offset.toNat = [] := by
    apply List.drop_eq_nil_of_le
    omega
  rw [hd]
  simp

/-- C5 as stated fails: with three matching products and a page size of two,
page five is beyond the last page; `GetAll` returns no entity and all-zero
metadata, so the total reported is 0 and not 3, the last page 0 and not 2. -/
theorem getAll_beyond_last_page :
    (ProductModel.GetAll (tableDB [lamp, lamp, lamp] []) "" "" "" "" "" ""
        { Page := 5, PageSize := 2, SortKey := "id",
          SortSafeList := ["id", "name", "-id", "-name"] }).1
      = .ok ([], Metadata.zero) ∧
    Metadata.zero.totalRecords ≠ 3 ∧ Metadata.zero.lastPage ≠ ⌈(3 : ℚ) / 2⌉ := by
  refine ⟨?_, by decide, ?_⟩
  · have hoff : wrapInt64 8 = 8 := by decide
    simp [ProductModel.GetAll, tableDB, sqlSelect, sqlPage, Filters.limit, Filters.offset,
      hoff, scanRows, calculateMetaData]
  · have h : ⌈(3 : ℚ) / 2⌉ = 2 := by
      rw [Int.ceil_eq_iff]
      norm_num
    rw [h]
    decide

/-- The offset of a far page wraps around: with one matching product, a page
size of 100 and page `2 ^ 62 + 1`, the product `(page - 1) * pageSize` is
`25 * 2 ^ 64`, the offset bound to the statement is 0, and `GetAll` returns the
product with a total of one record although the page is beyond the last one. -/
theorem getAll_offset_wraps :
    farPage.offset = 0 ∧
    ∃ md : Metadata,
      (ProductModel.GetAll (tableDB [lamp] []) "" "" "" "" "" "" farPage).1
        = .ok ([lamp], md) ∧ md.totalRecords = 1 := by
  have hoff : farPage.offset = 0 := by decide
  refine ⟨hoff, ?_⟩
  simp only [ProductModel.GetAll, tableDB, sqlSelect, sqlPage, Filters.limit, hoff]
  simp [scanRows, calculateMetaData, farPage]

/-- C5, amended: over `T` matching rows (`T` below `2 ^ 63`, a Go `int`), with a
page size in 1..100 and a page of at least 1, `GetAll` of products and of reviews
returns the rows of the page with metadata that reports `totalRecords = T` and
`lastPage = ceil(T / pageSize)` whenever the page holds at least one row, that
is when `(page - 1) * pageSize < T`; when the page is beyond the last one and the
offset `(page - 1) * pageSize` fits a Go `int` (is below `2 ^ 63`), it returns no
entity and all-zero metadata. Nothing is stated for an offset that overflows. -/
theorem getAll_metadata (products : List Product) (reviews : List Review) (f : Filters)
    (name description category price avgRating imageURL author rating helpful : String)
    (hS : 1 ≤ f.PageSize ∧ f.PageSize ≤ 100) (hP : 1 ≤ f.Page)
    (hTp : (products.length : Int) < 2 ^ 63) (hTr : (reviews.length : Int) < 2 ^ 63) :
    ((f.Page - 1) * f.PageSize < (products.length : Int) →
      (ProductModel.GetAll (tableDB products reviews) name description category price
          avgRating imageURL f).1
        = .ok ((products.drop ((f.Page - 1) * f.PageSize).toNat).take f.PageSize.toNat,
            { currentPage := f.Page, pageSize := f.PageSize, firstPage := 1,
              lastPage := ⌈((products.length : Int) : ℚ) / (f.PageSize : ℚ)⌉,
              totalRecords := (products.length : Int) })) ∧
    ((products.length : Int) ≤ (f.Page - 1) * f.PageSize → (f.Page - 1) * f.PageSize < 2 ^ 63 →
      (ProductModel.GetAll (tableDB products reviews) name description category price
          avgRating imageURL f).1 = .ok ([], Metadata.zero)) ∧
    ((f.Page - 1) * f.PageSize < (reviews.length : Int) →
      (ReviewModel.GetAll (tableDB products reviews) author rating helpful f).1
        = .ok ((reviews.drop ((f.Page - 1) * f.PageSize).toNat).take f.PageSize.toNat,
            { currentPage := f.Page, pageSize := f.PageSize, firstPage := 1,
              lastPage := ⌈((reviews.length : Int) : ℚ) / (f.PageSize : ℚ)⌉,
              totalRecords := (reviews.length : Int) })) ∧
    ((reviews.length : Int) ≤ (f.Page - 1) * f.PageSize → (f.Page - 1) * f.PageSize < 2 ^ 63 →
      (ReviewModel.GetAll (tableDB products reviews) author rating helpful f).1
        = .ok ([], Metadata.zero)) := by
  have hnn : 0 ≤ (f.Page - 1) * f.PageSize := mul_nonneg (by omega) (by omega)
  have hlim : ¬ (f.PageSize < 0 ∨ (f.Page - 1) * f.PageSize < 0) := by
    rintro (h | h) <;> omega
  refine ⟨?_, ?_, ?_, ?_⟩
  · intro hin
    have hoff : wrapInt64 ((f.Page - 1) * f.PageSize) = (f.Page - 1) * f.PageSize :=
      wrapInt64_of_range _ hnn (by omega)
    have hw := sqlPage_window_ne_nil products f.PageSize ((f.Page - 1) * f.PageSize)
      hS.1 hnn hin
    have hT : (products.length : Int) ≠ 0 := by omega
    simp only [ProductModel.GetAll, tableDB, sqlSelect, Filters.limit, Filters.offset, hoff,
      List.reverse_cons, List.reverse_nil, List.nil_append, List.cons_append, hlim, if_false,
      sqlPage, scanRows_counted, hw, Bool.false_eq_true, List.nil_append, calculateMetaData,
      hT]
  · intro hout hfit
    have hoff : wrapInt64 ((f.Page - 1) * f.PageSize) = (f.Page - 1) * f.PageSize :=
      wrapInt64_of_range _ hnn hfit
    have hw := sqlPage_window_nil products f.PageSize ((f.Page - 1) * f.PageSize) hnn hout
    simp only [ProductModel.GetAll, tableDB, sqlSelect, Filters.limit, Filters.offset, hoff,
      List.reverse_cons, List.reverse_nil, List.nil_append, List.cons_append, hlim, if_false,
      sqlPage, hw, List.map_nil, scanRows, calculateMetaData, if_true]
  · intro hin
    have hoff : wrapInt64 ((f.Page - 1) * f.PageSize) = (f.Page - 1) * f.PageSize :=
      wrapInt64_of_range _ hnn (by omega)
    have hw := sqlPage_window_ne_nil reviews f.PageSize ((f.Page - 1) * f.PageSize)
      hS.1 hnn hin
    have hT : (reviews.length : Int) ≠ 0 := by omega
    simp only [ReviewModel.GetAll, tableDB, sqlSelect, Filters.limit, Filters.offset, hoff,
      List.reverse_cons, List.reverse_nil, List.nil_append, List.cons_append, hlim, if_false,
      sqlPage, scanRows_counted, hw, Bool.false_eq_true, List.nil_append, calculateMetaData,
      hT]
  · intro hout hfit
    have hoff : wrapInt64 ((f.Page - 1) * f.PageSize) = (f.Page - 1) * f.PageSize :=
      wrapInt64_of_range _ hnn hfit
    have hw := sqlPage_window_nil reviews f.PageSize ((f.Page - 1) * f.PageSize) hnn hout
    simp only [ReviewModel.GetAll, tableDB, sqlSelect, Filters.limit, Filters.offset, hoff,
      List.reverse_cons, List.reverse_nil, List.nil_append, List.cons_append, hlim, if_false,
      sqlPage, hw, List.map_nil, scanRows, calculateMetaData, if_true]

/-- Witness for C5: three matching products, page size two, page two: the page
holds the third product and the metadata reports three records and a last page
of two. -/
theorem getAll_metadata_witness :
    (ProductModel.GetAll (tableDB [lamp, lamp, lamp] []) "" "" "" "" "" "" pageTwo).1
      = .ok ([lamp],
          { currentPage := 2, pageSize := 2, firstPage := 1, lastPage := 2,
            totalRecords := 3 }) := by
  have h := (getAll_metadata [lamp, lamp, lamp] [] pageTwo "" "" "" "" "" "" "" "" ""
    ⟨by decide, by decide⟩ (by decide) (by decide) (by decide)).1 (by decide)
  rw [h]
  have hc : ⌈(((([lamp, lamp, lamp] : List Product).length : ℕ) : ℤ) : ℚ)
      / ((pageTwo.PageSize : ℤ) : ℚ)⌉ = 2 := by
    rw [Int.ceil_eq_iff]
    norm_num [pageTwo]
  rw [hc]
  rfl

/-! ## Delete -/

/-- C11: `Delete` of products and of reviews returns the record-not-found error
without issuing a statement when the identity is below 1; for an identity of at
least 1, when the store reports no error and `n` affected rows, it returns
record-not-found exactly when `n` is zero and no error when `n` is at least
one. -/
theorem delete_reports_not_found (db : DB) (id : Int) :
    (id < 1 →
      ProductModel.Delete db id = (some .dataErrRecordNotFound, []) ∧
      ReviewModel.Delete db id = (some .dataErrRecordNotFound, [])) ∧
    (1 ≤ id → ∀ n : Int, db.deleteProduct [.int id] = .ok (.ok n) →
      ((ProductModel.Delete db id).1 = some .dataErrRecordNotFound ↔ n = 0) ∧
      (1 ≤ n → (ProductModel.Delete db id).1 = none)) ∧
    (1 ≤ id → ∀ n : Int, db.deleteReview [.int id] = .ok (.ok n) →
      ((ReviewModel.Delete db id).1 = some .dataErrRecordNotFound ↔ n = 0) ∧
      (1 ≤ n → (ReviewModel.Delete db id).1 = none)) := by
  refine ⟨?_, ?_, ?_⟩
  · intro h
    simp [ProductModel.Delete, ReviewModel.Delete, h]
  · intro h n hn
    have h1 : ¬ id < 1 := by omega
    simp only [ProductModel.Delete, h1, if_false, hn]
    by_cases h0 : n = 0
    · simp [h0]
    · simp only [h0, if_false]
      simp
  · intro h n hn
    have h1 : ¬ id < 1 := by omega
    simp only [ReviewModel.Delete, h1, if_false, hn]
    by_cases h0 : n = 0
    · simp [h0]
    · simp only [h0, if_false]
      simp

/-- Witness for C11: over the store that holds the lamp of identity 1, deleting
identity 0 issues nothing and reports record-not-found, and deleting identity 1
affects one row and reports no error. -/
theorem delete_reports_not_found_witness :
    ProductModel.Delete shopDB 0 = (some .dataErrRecordNotFound, []) ∧
    (ProductModel.Delete shopDB 1).1 = none :=
  ⟨((delete_reports_not_found shopDB 0).1 (by decide)).1,
   ((delete_reports_not_found shopDB 1).2.1 (by decide) 1
      (by simp [shopDB, tableDB, lamp])).2 (by decide)⟩

/-! ## Update -/

/-- C12, evaluated on the code: one call of `ProductModel.Update` on the stored
lamp issues the update statement twice, and in general twice whenever the first
execution succeeds; `ReviewModel.Update` issues its statement once. -/
theorem update_issues_statement_twice :
    (ProductModel.Update shopDB lamp).2.length = 2 ∧
    (∀ (db : DB) (product : Product),
      (ProductModel.Update db product).2.length
        = match db.updateProduct [.text product.Name, .text product.Description,
            .text product.Category, .real product.Price, .text product.ImageURL,
            .real product.AverageRating, .int product.ID] with
          | .ok _ => 2
          | .error _ => 1) ∧
    (∀ (db : DB) (review : Review), (ReviewModel.Update db review).2.length = 1) := by
  refine ⟨?_, ?_, ?_⟩
  · simp [ProductModel.Update, shopDB]
  · intro db product
    cases h : db.updateProduct [.text product.Name, .text product.Description,
        .text product.Category, .real product.Price, .text product.ImageURL,
        .real product.AverageRating, .int product.ID] with
    | error err => simp [ProductModel.Update, h]
    | ok id => simp [ProductModel.Update, h]
  · intro db review
    simp only [ReviewModel.Update]
    split <;> rfl

/-! ## Absent fields in a create-review payload -/

/-- C13, evaluated on the code: for the stored product 1, a create-review
payload with no author, and one with no rating, end in a run-time panic at the
dereference, before `ValidateReview` is reached; behind `recoverPanic` the
answer is the server-error response and not a validation failure. -/
theorem createReview_absent_field_panics :
    (createReviewHandler shopApp (.ok authorlessReview)).1
      = .panic "nil pointer dereference" ∧
    (createReviewHandler shopApp (.ok ratinglessReview)).1
      = .panic "nil pointer dereference" ∧
    recoverPanic (fun _ => (createReviewHandler shopApp (.ok authorlessReview)).1) demoRequest
      = .response (.serverError (.other "nil pointer dereference")) := by
  have h1 : (createReviewHandler shopApp (.ok authorlessReview)).1
      = .panic "nil pointer dereference" := by
    simp [createReviewHandler, authorlessReview, ProductModel.Exists, shopApp, shopDB,
      tableDB, lamp]
  refine ⟨h1, ?_, ?_⟩
  · simp [createReviewHandler, ratinglessReview, ProductModel.Exists, shopApp, shopDB,
      tableDB, lamp]
  · simp only [recoverPanic, h1]

/-! ## Per-client isolation -/

theorem rateLimit_other_entry (cfg : LimiterConfig) (next : Request → Result) (now : ℚ)
    (r : Request) (clients : Clients) (ipA port ipB : String)
    (hr : r.hostPort = .ok (ipA, port)) (hne : ipA ≠ ipB) :
    mapGet (rateLimit cfg next now r clients).2 ipB = mapGet clients ipB := by
  by_cases he : cfg.enabled = true
  · cases hc : mapGet clients ipA with
    | none =>
      rw [rateLimit_fresh cfg next now r clients ipA port he hr hc]
      simp only
      rw [mapGet_mapSet_other _ _ _ _ hne, mapGet_mapSet_other _ _ _ _ hne]
    | some c =>
      rw [rateLimit_found cfg next now r clients ipA port c he hr hc]
      simp only
      rw [mapGet_mapSet_other _ _ _ _ hne]
  · unfold rateLimit
    simp [he]

theorem rateLimit_outcome_own_entry (cfg : LimiterConfig) (next : Request → Result) (now : ℚ)
    (r : Request) (c1 c2 : Clients) (ip port : String)
    (hr : r.hostPort = .ok (ip, port)) (h : mapGet c1 ip = mapGet c2 ip) :
    (rateLimit cfg next now r c1).1 = (rateLimit cfg next now r c2).1 := by
  by_cases he : cfg.enabled = true
  · cases hc : mapGet c1 ip with
    | none =>
      rw [rateLimit_fresh cfg next now r c1 ip port he hr hc,
        rateLimit_fresh cfg next now r c2 ip port he hr (h ▸ hc)]
    | some c =>
      rw [rateLimit_found cfg next now r c1 ip port c he hr hc,
        rateLimit_found cfg next now r c2 ip port c he hr (h ▸ hc)]
  · unfold rateLimit
    simp [he]

theorem serveAll_other_entry (cfg : LimiterConfig) (next : Request → Result)
    (ipA ipB : String) (hne : ipA ≠ ipB) (reqs : List (ℚ × Request)) :
    ∀ clients : Clients, (∀ q ∈ reqs, ∃ port, q.2.hostPort = .ok (ipA, port)) →
      mapGet (serveAll (rateLimit cfg next) reqs clients).2 ipB = mapGet clients ipB := by
  induction reqs with
  | nil =>
    intro clients _
    rfl
  | cons q rest ih =>
    intro clients hall
    obtain ⟨now, r⟩ := q
    obtain ⟨port, hr⟩ := hall (now, r) (List.mem_cons_self _ _)
    rw [serveAll_cons]
    simp only
    rw [ih _ (fun q hq => hall q (List.mem_cons_of_mem _ hq))]
    exact rateLimit_other_entry cfg next now r clients ipA port ipB hr hne

/-- C14: for distinct client identities A and B and every registry, handling a
request from A leaves the entry of B as it was (present or absent, with the same
limiter and lastSeen); hence the outcome of a request from B after any number of
requests from A is the outcome it would have had without them; and a request
whose remote address cannot be split leaves the registry as it was. -/
theorem rateLimit_isolation (cfg : LimiterConfig) (next : Request → Result)
    (clients : Clients) (ipA ipB : String) (hne : ipA ≠ ipB) :
    (∀ (now : ℚ) (r : Request) (port : String), r.hostPort = .ok (ipA, port) →
      mapGet (rateLimit cfg next now r clients).2 ipB = mapGet clients ipB) ∧
    (∀ (reqs : List (ℚ × Request)), (∀ q ∈ reqs, ∃ port, q.2.hostPort = .ok (ipA, port)) →
      ∀ (now : ℚ) (rB : Request) (port : String), rB.hostPort = .ok (ipB, port) →
        (rateLimit cfg next now rB (serveAll (rateLimit cfg next) reqs clients).2).1
          = (rateLimit cfg next now rB clients).1) ∧
    (∀ (now : ℚ) (r : Request) (err : GoError), r.hostPort = .error err →
      (rateLimit cfg next now r clients).2 = clients) := by
  refine ⟨?_, ?_, ?_⟩
  · intro now r port hr
    exact rateLimit_other_entry cfg next now r clients ipA port ipB hr hne
  · intro reqs hall now rB port hrB
    exact rateLimit_outcome_own_entry cfg next now rB _ _ ipB port hrB
      (serveAll_other_entry cfg next ipA ipB hne reqs clients hall)
  · intro now r err hr
    unfold rateLimit
    by_cases he : cfg.enabled = true <;> simp [he, hr]

/-- Witness for C14: clients 10.0.0.1 and 10.0.0.2 under the default
configuration, on the registry in which 10.0.0.1 has spent its bucket. -/
theorem rateLimit_isolation_witness :
    mapGet (rateLimit demoConfig demoNext 100 demoRequest drainedClients).2 "10.0.0.2"
      = mapGet drainedClients "10.0.0.2" ∧
    (rateLimit demoConfig demoNext 100 otherRequest
        (serveAll (rateLimit demoConfig demoNext)
          [(100, demoRequest), (100, demoRequest)] drainedClients).2).1
      = (rateLimit demoConfig demoNext 100 otherRequest drainedClients).1 ∧
    (rateLimit demoConfig demoNext 100 malformedRequest drainedClients).2 = drainedClients :=
  have h := rateLimit_isolation demoConfig demoNext drainedClients "10.0.0.1" "10.0.0.2"
    (by decide)
  ⟨h.1 100 demoRequest "4000" rfl,
   h.2.1 [(100, demoRequest), (100, demoRequest)]
     (by
       intro q hq
       simp only [List.mem_cons, List.mem_singleton, List.not_mem_nil, or_false, or_self] at hq
       exact ⟨"4000", by rw [hq]; rfl⟩)
     100 otherRequest "5000" rfl,
   h.2.2 100 malformedRequest _ rfl⟩

end Awt
